import Mathlib

/-!
Verification development for `joi-route-to-swagger` (`src/index.js`).

The JavaScript source is shallowly embedded: JS objects become Lean
structures whose optional keys are `Option` fields (`none` models an
absent or `undefined` key), JS objects used as string-keyed maps become
association lists `List (String × _)`, in-place mutation becomes explicit
state passing, and a thrown `TypeError` becomes `Except.error .typeError`.
The external SchemaConverter collaborator `joi2json` is kept abstract as a
function parameter (`Conv`), together with the two joi-introspection
capabilities (`$_terms.keys` listing and `.extract`) that `convert` uses.
-/

set_option maxRecDepth 4000

namespace JoiRouteToSwagger

/-- JSON-like primitive value, used for `example` values, joi `_flags`
values and other data the core copies around without interpreting. -/
inductive JsonVal where
  | str (s : String)
  | num (n : Int)
  | bool (b : Bool)
  | null
  deriving DecidableEq, Repr

/-- The only error the embedded code can raise: a JavaScript `TypeError`
from accessing a property of `undefined`. -/
inductive JsErr where
  | typeError
  deriving DecidableEq, Repr

/-- JS truthiness of an optional string (`undefined` and `""` are falsy). -/
def jsTruthy : Option String → Bool
  | some s => decide (s ≠ "")
  | none => false

/-- JS truthiness of a `JsonVal` (`""`, `0`, `false` and `null` are falsy). -/
def JsonVal.jsTruthy : JsonVal → Bool
  | .str s => decide (s ≠ "")
  | .num n => decide (n ≠ 0)
  | .bool b => b
  | .null => false

/-- Template-literal stringification of a `JsonVal`, as in `` `${v}` ``. -/
def JsonVal.jsShow : JsonVal → String
  | .str s => s
  | .num n => toString n
  | .bool b => if b then "true" else "false"
  | .null => "null"

/-- JS `a || b` for an optional string `a` (falsy `a`, i.e. absent or
empty, selects `b`). -/
def jsOrStr : Option String → String → String
  | some s, b => if s = "" then b else s
  | none, b => b

/-- Property read `m[k]` on a JS object modelled as an association list:
the first binding of the key, `none` when the key is absent. -/
def jsGet {β : Type} : List (String × β) → String → Option β
  | [], _ => none
  | (k', v) :: rest, k => if k' = k then some v else jsGet rest k

/-- Property write `m[k] = v` on a JS object modelled as an association
list: replaces the first binding of `k` in place, or appends a new one. -/
def setKey {β : Type} : List (String × β) → String → β → List (String × β)
  | [], k, v => [(k, v)]
  | (k', v') :: rest, k, v =>
    if k' = k then (k, v) :: rest else (k', v') :: setKey rest k v

/-- Character-level worker for JS `String.prototype.split("/")`. -/
def splitSlashList : List Char → List (List Char)
  | [] => [[]]
  | c :: cs =>
    match splitSlashList cs with
    | [] => if c = '/' then [[], []] else [[c]]
    | h :: t => if c = '/' then [] :: h :: t else (c :: h) :: t

/-- JS `s.split("/")` (keeps empty segments, `"".split("/") = [""]`). -/
def splitSlash (s : String) : List String :=
  (splitSlashList s.toList).map List.asString

/-- JS `parts.join("/")` (`[].join("/") = ""`). -/
def joinSlash : List String → String
  | [] => ""
  | [x] => x
  | x :: y :: rest => x ++ "/" ++ joinSlash (y :: rest)

/-- JS `s.replace(/\//g, "-")`: every `/` becomes `-`. -/
def replaceSlashDash (s : String) : String :=
  (s.toList.map fun c => if c = '/' then '-' else c).asString

/-- When `l` starts with `pat`, the remainder of `l` after that match. -/
def matchRest : List Char → List Char → Option (List Char)
  | [], l => some l
  | _ :: _, [] => none
  | p :: ps, c :: cs => if c = p then matchRest ps cs else none

/-- Character-level worker for `jsReplaceFirst`: removes the first
occurrence of `pat`. -/
def dropFirstMatch (pat : List Char) : List Char → List Char
  | [] => []
  | c :: cs =>
    match matchRest pat (c :: cs) with
    | some rest => rest
    | none => c :: dropFirstMatch pat cs

/-- JS `s.replace(pat, "")` with a string pattern: only the first
occurrence of `pat` is removed. -/
def jsReplaceFirst (s pat : String) : String :=
  (dropFirstMatch pat.toList s.toList).asString

/-- JS `component.indexOf(":") === 0`, i.e. the string starts with `:`. -/
def startsWithColon (s : String) : Bool :=
  match s.toList with
  | c :: _ => decide (c = ':')
  | [] => false

/-- JS `s.substring(1)`. -/
def jsDropOne (s : String) : String :=
  (s.toList.drop 1).asString

/-- A single entry of the `items` sub-schema of an array field; the source
only ever reads `items.format` (line 63). -/
structure ItemsSchema where
  type : Option String := none
  format : Option String := none
  deriving DecidableEq, Repr

/-- One top-level property of a converted JSON schema, with the field-level
metadata the source reads: `type`, `format`, `description`,
`example`/`examples`, `items`, and a (never-followed) nested `$ref`. -/
structure FieldSchema where
  type : Option String := none
  format : Option String := none
  description : Option String := none
  «example» : Option JsonVal := none
  examples : Option (List JsonVal) := none
  items : Option ItemsSchema := none
  ref : Option String := none
  deriving DecidableEq, Repr

/-- A converted JSON schema as consumed by the core: top-level
`properties`, the optional top-level `required` list, an optional
root-level `$ref`, and the root `type`. -/
structure JSchema where
  type : Option String := none
  properties : List (String × FieldSchema) := []
  required : Option (List String) := none
  ref : Option String := none
  deriving DecidableEq, Repr

/-- The document's shared-schema store `docEntity.components.schemas`. -/
abbrev Store := List (String × JSchema)

/-- Raw return value of the SchemaConverter collaborator
`joi2json(node, "open-api", sharedSchemas)`: the converted schema plus the
`schemas` side-map that every caller deletes right after the call. -/
structure RawConverted where
  schema : JSchema
  schemas : List (String × JSchema) := []
  deriving DecidableEq, Repr

/-- Abstract SchemaConverter: converts one opaque validation-schema node,
threading the shared-schema store (the source mutates the store object it
passes in, so the updated store is returned alongside). -/
abbrev Conv (σ : Type) := σ → Store → RawConverted × Store

/-- An OpenAPI Parameter Object as built by `_convertJsonSchemaToParamObj`
and its callers. `none` fields model absent keys. -/
structure ParamObj where
  name : String := ""
  «in» : Option String := none
  required : Option Bool := none
  description : Option String := none
  «example» : Option JsonVal := none
  examples : Option (List JsonVal) := none
  schema : Option FieldSchema := none
  deriving DecidableEq, Repr

/-- A Request Body Object `{ content: { [contentType]: { schema } } }`;
`content` maps the content type to the media object's schema. -/
structure RequestBody where
  content : List (String × JSchema) := []
  deriving DecidableEq, Repr

/-- A Response Object `{ description, content: { [mediaType]: { schema } } }`. -/
structure ResponseObj where
  description : String := ""
  content : List (String × JSchema) := []
  deriving DecidableEq, Repr

/-- The per-method route object (`swaggerReq` in the source). -/
structure RouteObj where
  tags : List String := []
  summary : Option String := none
  description : Option String := none
  security : Option JsonVal := none
  deprecated : Option Bool := none
  parameters : List ParamObj := []
  requestBody : Option RequestBody := none
  responses : List (String × ResponseObj) := []
  deriving DecidableEq, Repr

/-- A Tag Object `{ name, description }`. -/
structure Tag where
  name : String
  description : String
  deriving DecidableEq, Repr

/-- The OpenAPI document under construction (`docEntity`); only the fields
the core logic reads or writes are modelled (`openapi`, `info` and
`servers` are carried through the skeleton merge unchanged). -/
structure DocEntity where
  tags : List Tag := []
  paths : List (String × List (String × RouteObj)) := []
  components_schemas : Store := []
  deriving DecidableEq, Repr

/-- One element of a joi validator's `$_terms.keys`: the key name together
with the subschema's `_flags` value (destructured as `presence`). -/
structure TermKey where
  key : String
  flags : JsonVal := .null
  deriving DecidableEq, Repr

/-- One entry pushed into a route definition's side-channel `parameters`
array by the first pass of `convert` (lines 272-309). -/
structure SideParam (σ : Type) where
  «in» : String
  name : String
  schema : Option σ := none
  required : Bool := false
  deriving DecidableEq, Repr

/-- A route's validators object; each position key holds an opaque
validation-schema node. -/
structure Validators (σ : Type) where
  path : Option σ := none
  query : Option σ := none
  header : Option σ := none
  body : Option σ := none
  queryStringParameters : Option σ := none
  pathParameters : Option σ := none
  deriving DecidableEq, Repr

/-- Dynamic property read `validators[position]` (source line 34). -/
def Validators.get {σ : Type} (vs : Validators σ) : String → Option σ
  | "path" => vs.path
  | "query" => vs.query
  | "header" => vs.header
  | "body" => vs.body
  | "queryStringParameters" => vs.queryStringParameters
  | "pathParameters" => vs.pathParameters
  | _ => none

/-- A declared response example `{ code, schema?, mediaType?, description? }`. -/
structure ResponseExample (σ : Type) where
  code : String
  schema : Option σ := none
  mediaType : Option String := none
  description : Option String := none
  deriving DecidableEq, Repr

/-- One route definition (input to the assembler). `parameters` is the
side channel populated by `convert`'s first pass. -/
structure RouteDef (σ : Type) where
  method : String := "get"
  path : String := ""
  summary : Option String := none
  description : Option String := none
  security : Option JsonVal := none
  deprecated : Option Bool := none
  validators : Option (Validators σ) := none
  responseExamples : List (ResponseExample σ) := []
  parameters : Option (List (SideParam σ)) := none
  deriving DecidableEq, Repr

/-- A module of routes grouped under one base path and one tag. -/
structure RouteModule (σ : Type) where
  basePath : String := ""
  name : Option String := none
  description : Option String := none
  routes : List (RouteDef σ) := []
  deriving DecidableEq, Repr

/-- Caller-supplied overrides for `DOC_ROOT_TEMPLATE`; `_.assign` replaces
whole top-level keys, so each present field replaces the default. -/
structure DocSkeleton where
  tags : Option (List Tag) := none
  paths : Option (List (String × List (String × RouteObj))) := none
  components : Option Store := none
  deriving DecidableEq, Repr

/-- Caller-supplied overrides for `ROUTE_DEF_TEMPLATE`. -/
structure RouteSkeleton where
  tags : Option (List String) := none
  summary : Option String := none
  description : Option String := none
  parameters : Option (List ParamObj) := none
  responses : Option (List (String × ResponseObj)) := none
  deriving DecidableEq, Repr

section SourceFunctions

variable {σ : Type}

/-- Source lines 4-11, `_messageDescriptionWithExample(schema)`: default a
falsy `description` to `""`, then, when `example` is truthy, append
`" (Example: <value>)"` to the description. Mutation of the argument is
modelled by returning the updated object. -/
def _messageDescriptionWithExample (schema : ParamObj) : ParamObj :=
  let schema1 :=
    if jsTruthy schema.description then schema
    else { schema with description := some "" }
  match schema1.«example» with
  | some v =>
    if v.jsTruthy then
      { schema1 with
        description := some ((schema1.description.getD "") ++ " (Example: " ++ v.jsShow ++ ")") }
    else schema1
  | none => schema1

/-- Source lines 16-30, the body of `_convertJsonSchemaToParamObj` after
the property lookup succeeded with `schema`: `_.pick` of `description` and
`examples`, the `required` flag, the (dead, later overwritten) promotion
of `examples[0]` to `example`, the `_.omit` into `paramObj.schema`, the
overwriting `paramObj.example = schema.example`, and the description
annotation. -/
def paramFromField (jsonSchema : JSchema) (fieldName : String)
    (schema : FieldSchema) : ParamObj :=
  let paramObj : ParamObj :=
    { name := fieldName, description := schema.description,
      examples := schema.examples }
  let paramObj :=
    match jsonSchema.required with
    | some req => if fieldName ∈ req then { paramObj with required := some true } else paramObj
    | none => paramObj
  let paramObj :=
    match paramObj.examples with
    | some (x :: _) => { paramObj with «example» := some x, examples := none }
    | _ => paramObj
  let paramObj :=
    { paramObj with schema := some { schema with description := none, «example» := none } }
  let paramObj := { paramObj with «example» := schema.«example» }
  _messageDescriptionWithExample paramObj

/-- Source lines 13-31, `_convertJsonSchemaToParamObj(jsonSchema, fieldName)`.
When the field is absent, `jsonSchema.properties[fieldName]` is
`undefined` and line 27 (`schema.example`) throws a `TypeError`. -/
def _convertJsonSchemaToParamObj (jsonSchema : JSchema) (fieldName : String) :
    Except JsErr ParamObj :=
  match jsGet jsonSchema.properties fieldName with
  | none => .error .typeError
  | some schema => .ok (paramFromField jsonSchema fieldName schema)

/-- Source lines 49-55: the `in` value chosen for a position key. -/
def posLabel (position : String) : String :=
  if position = "queryStringParameters" then "query"
  else if position = "pathParameters" then "path"
  else position

/-- The body of the `_.forEach` callback of `addRouteParameters`
(source lines 46-57): convert one field and push it, with its `in` set
from the position, onto the route's parameter list. -/
def routeParamStep (joiJsonSchema : JSchema) (position : String)
    (acc : RouteObj) (pr : String × FieldSchema) : Except JsErr RouteObj :=
  match _convertJsonSchemaToParamObj joiJsonSchema pr.1 with
  | .error e => .error e
  | .ok paramObj =>
    .ok { acc with parameters :=
      acc.parameters ++ [{ paramObj with «in» := some (posLabel position) }] }

/-- Source lines 33-58, `addRouteParameters(sharedSchemas, route,
validators, position)`: convert the validator registered under
`position` (if any), delete its `schemas` side-map, and project one
Parameter Object per top-level property. -/
def addRouteParameters (conv : Conv σ) (sharedSchemas : Store)
    (route : RouteObj) (validators : Option (Validators σ))
    (position : String) : Except JsErr (RouteObj × Store) :=
  match validators.bind (fun vs => vs.get position) with
  | none => .ok (route, sharedSchemas)
  | some validator =>
    let converted := conv validator sharedSchemas
    let joiJsonSchema := converted.1.schema
    (joiJsonSchema.properties.foldlM (routeParamStep joiJsonSchema position) route).map
      (fun r => (r, converted.2))

/-- Source lines 62-65: the `_.some` predicate of `containsBinaryField`.
An `array` field whose `items` key is absent makes `fieldDefn.items.format`
throw a `TypeError`. -/
def fieldBinaryCheck (fieldDefn : FieldSchema) : Except JsErr Bool :=
  if fieldDefn.type = some "array" then
    match fieldDefn.items with
    | none => .error .typeError
    | some items => .ok (decide (items.format = some "binary"))
  else .ok (decide (fieldDefn.format = some "binary"))

/-- `_.some` over a collection with a predicate that can throw: stops at
the first truthy result, propagates the first error. -/
def someExcept {α : Type} (l : List α) (p : α → Except JsErr Bool) :
    Except JsErr Bool :=
  match l with
  | [] => .ok false
  | x :: xs =>
    match p x with
    | .error e => .error e
    | .ok b => if b then .ok true else someExcept xs p

/-- Source line 61: `_.some(schema.properties, fieldDefn => ...)`. -/
def localBinaryScan (s : JSchema) : Except JsErr Bool :=
  someExcept s.properties (fun pr => fieldBinaryCheck pr.2)

/-- Source line 69: `schema.$ref.replace("#/components/schemas/", "")`. -/
def refName (ref : Option String) : String :=
  jsReplaceFirst (ref.getD "") "#/components/schemas/"

/-- Source lines 60-74, `containsBinaryField(schema, sharedSchemas)`.
Both parameters may be `undefined` (`none`): the recursive call at
line 70 passes only the looked-up schema, leaving `sharedSchemas`
undefined one level down, and a `none` schema throws at
`schema.properties`, a `none` store throws at `sharedSchemas[name]`. -/
def containsBinaryField (schema : Option JSchema) (sharedSchemas : Option Store) :
    Except JsErr Bool :=
  match schema with
  | none => .error .typeError
  | some s =>
    match localBinaryScan s with
    | .error e => .error e
    | .ok anyBinaryField =>
      if !anyBinaryField && jsTruthy s.ref then
        match sharedSchemas with
        | none => .error .typeError
        | some store => containsBinaryField (jsGet store (refName s.ref)) none
      else .ok anyBinaryField
termination_by sharedSchemas.elim 0 fun _ => 1
decreasing_by simp [Option.elim]

/-- Source lines 76-95, `addRequestBodyParams(sharedSchemas, swaggerReq,
validators)`: when a body validator exists, convert it, delete the
`schemas` side-map, pick the content type by `containsBinaryField`, and
attach the Request Body Object. -/
def addRequestBodyParams (conv : Conv σ) (sharedSchemas : Store)
    (swaggerReq : RouteObj) (validators : Option (Validators σ)) :
    Except JsErr (RouteObj × Store) :=
  match validators.bind (fun vs => vs.body) with
  | none => .ok (swaggerReq, sharedSchemas)
  | some bodyVal =>
    let converted := conv bodyVal sharedSchemas
    let schema := converted.1.schema
    match containsBinaryField (some schema) (some converted.2) with
    | .error e => .error e
    | .ok isBinary =>
      let contentType := if isBinary then "multipart/form-data" else "application/json"
      .ok ({ swaggerReq with requestBody := some { content := [(contentType, schema)] } },
           converted.2)

/-- Source lines 97-123, `addRequestPathParams(sharedSchemas, route,
pathParams, validators)`: for each path-parameter name, either project it
from the converted `path` validator, or default to a required untyped
string parameter; always force `in: "path"` and a non-falsy description. -/
def addRequestPathParams (conv : Conv σ) (sharedSchemas : Store)
    (route : RouteObj) (pathParams : List String)
    (validators : Option (Validators σ)) : Except JsErr (RouteObj × Store) :=
  let converted : Option JSchema × Store :=
    match validators.bind (fun vs => vs.path) with
    | some pv =>
      let c := conv pv sharedSchemas
      (some c.1.schema, c.2)
    | none => (none, sharedSchemas)
  (pathParams.foldlM
    (fun (acc : RouteObj) (param : String) => do
      let schema : ParamObj :=
        { name := param, required := some true, schema := some { type := some "string" } }
      let schema ←
        match converted.1 with
        | some pathParamSchema => _convertJsonSchemaToParamObj pathParamSchema param
        | none => pure schema
      let schema := { schema with «in» := some "path" }
      let schema :=
        if jsTruthy schema.description then schema
        else { schema with description := some "" }
      pure { acc with parameters := acc.parameters ++ [schema] })
    route).map (fun r => (r, converted.2))

/-- The body of the `_.forEach` callback of `addResponseExample`
(source lines 126-143): skip examples without a schema; otherwise convert
the schema, delete its `schemas` side-map, and store a Response Object at
`responses[code]`, overwriting any previous entry for that code. -/
def respExampleStep (conv : Conv σ) (acc : RouteObj × Store)
    (ex : ResponseExample σ) : RouteObj × Store :=
  match ex.schema with
  | none => acc
  | some s =>
    let converted := conv s acc.2
    let schema := converted.1.schema
    let mediaType := jsOrStr ex.mediaType "application/json"
    let respObj : ResponseObj :=
      { description := jsOrStr ex.description "Normal Response",
        content := [(mediaType, schema)] }
    ({ acc.1 with responses := setKey acc.1.responses ex.code respObj }, converted.2)

/-- Source lines 125-144, `addResponseExample(sharedSchemas, routeDef, route)`. -/
def addResponseExample (conv : Conv σ) (sharedSchemas : Store)
    (routeDef : RouteDef σ) (route : RouteObj) : RouteObj × Store :=
  routeDef.responseExamples.foldl (respExampleStep conv) (route, sharedSchemas)

/-- The body of the `.map` callback of lines 151-158, with the `push` into
`pathParams` made explicit as the second accumulator component: a segment
starting with `:` becomes `{name}` and its bare name is recorded. -/
def pathTemplateStep (acc : List String × List String) (component : String) :
    List String × List String :=
  if startsWithColon component then
    (acc.1 ++ ["\x7b" ++ jsDropOne component ++ "\x7d"], acc.2 ++ [jsDropOne component])
  else (acc.1 ++ [component], acc.2)

/-- Source lines 148-160 of `buildSwaggerRequest`: split the concatenated
path on `/`, turn `:name` segments into `{name}` while collecting the bare
names left to right, and rejoin with `/`. -/
def buildPathTemplate (basePath : String) (path : String) : String × List String :=
  let r := (splitSlash (basePath ++ path)).foldl pathTemplateStep ([], [])
  (joinSlash r.1, r.2)

/-- Source lines 178-190: the chain of parameter/body/response builders
applied to the freshly cloned route object, threading the shared-schema
store through every call. -/
def buildSwaggerReqCore (conv : Conv σ) (sharedSchemas : Store)
    (swaggerReq : RouteObj) (validators : Option (Validators σ))
    (pathParams : List String) (routeDef : RouteDef σ) :
    Except JsErr (RouteObj × Store) := do
  let (r1, s1) ← addRequestPathParams conv sharedSchemas swaggerReq pathParams validators
  let (r2, s2) ← addRouteParameters conv s1 r1 validators "query"
  let (r3, s3) ← addRouteParameters conv s2 r2 validators "queryStringParameters"
  let (r4, s4) ← addRouteParameters conv s3 r3 validators "header"
  let (r5, s5) ← addRouteParameters conv s4 r4 validators "pathParameters"
  let (r6, s6) ← addRequestBodyParams conv s5 r5 validators
  pure (addResponseExample conv s6 routeDef r6)

/-- Source lines 146-191, `buildSwaggerRequest(docEntity, routeEntity,
tag, basePath, routeDef)`: compute the path template, clone the route
skeleton, attach the route metadata, run the builder chain, and install
the finished route object at `paths[pathString][method]`. The source
installs the object before mutating it further; since processing is
single-threaded the final document is the one modelled here. -/
def buildSwaggerRequest (conv : Conv σ) (docEntity : DocEntity)
    (routeEntity : RouteObj) (tag : String) (basePath : String)
    (routeDef : RouteDef σ) : Except JsErr DocEntity :=
  let tmpl := buildPathTemplate basePath routeDef.path
  let pathString := tmpl.1
  let routePath := (jsGet docEntity.paths pathString).getD []
  let swaggerReq : RouteObj :=
    { routeEntity with
      tags := routeEntity.tags ++ [tag],
      summary := routeDef.summary,
      description := routeDef.description,
      security := routeDef.security }
  let swaggerReq :=
    if routeDef.deprecated.getD false then { swaggerReq with deprecated := routeDef.deprecated }
    else swaggerReq
  match buildSwaggerReqCore conv docEntity.components_schemas swaggerReq
      routeDef.validators tmpl.2 routeDef with
  | .error e => .error e
  | .ok (req, store) =>
    .ok { docEntity with
      paths := setKey docEntity.paths pathString (setKey routePath routeDef.method req),
      components_schemas := store }

/-- Source line 194: `moduleRoutes.basePath.substring(1).replace(/\//g, "-")`. -/
def moduleIdOf (m : RouteModule σ) : String :=
  replaceSlashDash (jsDropOne m.basePath)

/-- Source lines 195-200: the Tag Object derived from a module. -/
def tagObjOf (m : RouteModule σ) : Tag :=
  { name := jsOrStr m.name (moduleIdOf m),
    description := jsOrStr m.description (moduleIdOf m) }

/-- Source lines 193-215, `buildModuleRoutes(docEntity, routeEntity,
moduleRoutes)`: register the module's tag unless a tag with the same name
exists, then process each route in order. -/
def buildModuleRoutes (conv : Conv σ) (docEntity : DocEntity)
    (routeEntity : RouteObj) (moduleRoutes : RouteModule σ) :
    Except JsErr DocEntity :=
  let tagObject := tagObjOf moduleRoutes
  let docEntity :=
    match docEntity.tags.find? (fun t => t.name == tagObject.name) with
    | some _ => docEntity
    | none => { docEntity with tags := docEntity.tags ++ [tagObject] }
  moduleRoutes.routes.foldlM
    (fun d rd => buildSwaggerRequest conv d routeEntity tagObject.name moduleRoutes.basePath rd)
    docEntity

/-- Source lines 311-313: the second pass of `convert`. -/
def foldModules (conv : Conv σ) (routeEntity : RouteObj) (docEntity : DocEntity)
    (ms : List (RouteModule σ)) : Except JsErr DocEntity :=
  ms.foldlM (fun d m => buildModuleRoutes conv d routeEntity m) docEntity

/-- Source lines 274-307 for one route: ensure the side-channel
`parameters` array exists, then for the `pathParameters` and
`queryStringParameters` validators push one entry per `$_terms.keys`
element - both loops label their entries `in: "path"` (lines 283 and
300). `_.each` over a missing `$_terms.keys` is a no-op. -/
def annotateRoute (termsKeys : σ → Option (List TermKey))
    (extractKey : σ → String → Option σ) (route : RouteDef σ) : RouteDef σ :=
  let params0 := route.parameters.getD []
  let params1 :=
    match route.validators.bind (fun v => v.pathParameters) with
    | none => params0
    | some pp => params0 ++ ((termsKeys pp).getD []).map (fun k =>
        ({ «in» := "path", name := k.key, schema := extractKey pp k.key,
           required := decide (k.flags = JsonVal.str "required") } : SideParam σ))
  let params2 :=
    match route.validators.bind (fun v => v.queryStringParameters) with
    | none => params1
    | some qs => params1 ++ ((termsKeys qs).getD []).map (fun k =>
        ({ «in» := "path", name := k.key, schema := extractKey qs k.key,
           required := decide (k.flags = JsonVal.str "required") } : SideParam σ))
  { route with parameters := some params2 }

/-- The `components.schemas` entry of `DOC_ROOT_TEMPLATE` (lines 232-247). -/
def docRootComponentSchemas : Store :=
  [("Error",
    { type := some "object", required := some ["code", "err"],
      properties := [("code", { type := some "string" }),
                     ("err", { type := some "string" })] })]

/-- The `responses` entry of `ROUTE_DEF_TEMPLATE` (lines 255-266). -/
def routeDefTemplateResponses : List (String × ResponseObj) :=
  [("500",
    { description := "When Server takes a nap.",
      content := [("application/json", { ref := some "#/components/schemas/Error" })] })]

/-- Source lines 217-316, `convert(allModuleRoutes, docSkeleton,
routeSkeleton)`: shallow-merge the skeletons over the built-in templates,
run the side-channel annotation pass over (and onto) the input module
list, then assemble the document. The pair returned models (document
result, final state of the mutated `allModuleRoutes` argument). -/
def convert (conv : Conv σ) (termsKeys : σ → Option (List TermKey))
    (extractKey : σ → String → Option σ)
    (allModuleRoutes : List (RouteModule σ)) (docSkeleton : DocSkeleton)
    (routeSkeleton : RouteSkeleton) :
    Except JsErr DocEntity × List (RouteModule σ) :=
  let docEntity : DocEntity :=
    { tags := docSkeleton.tags.getD [],
      paths := docSkeleton.paths.getD [],
      components_schemas := docSkeleton.components.getD docRootComponentSchemas }
  let routeEntity : RouteObj :=
    { tags := routeSkeleton.tags.getD [],
      summary := some (routeSkeleton.summary.getD ""),
      description := some (routeSkeleton.description.getD ""),
      parameters := routeSkeleton.parameters.getD [],
      responses := routeSkeleton.responses.getD routeDefTemplateResponses }
  let annotated := allModuleRoutes.map fun m =>
    { m with routes := m.routes.map (annotateRoute termsKeys extractKey) }
  (foldModules conv routeEntity docEntity annotated, annotated)

end SourceFunctions

deriving instance DecidableEq for Except

section BinaryDetectorLemmas

/-- The resolution step of `containsBinaryField`: with no binary top-level
property and a truthy root `$ref`, the store entry is looked up and the
recursive call receives no store (line 70 passes a single argument). -/
theorem containsBinaryField_hop (s : JSchema) (store : Store)
    (hs : localBinaryScan s = .ok false) (hr : jsTruthy s.ref = true) :
    containsBinaryField (some s) (some store) =
      containsBinaryField (jsGet store (refName s.ref)) none := by
  rw [containsBinaryField]
  simp [hs, hr]

/-- An `undefined` schema argument makes `schema.properties` throw. -/
theorem containsBinaryField_none_schema (st : Option Store) :
    containsBinaryField none st = .error .typeError := by
  rw [containsBinaryField]

/-- With an `undefined` store, a schema that needs reference resolution
makes `sharedSchemas[name]` throw. -/
theorem containsBinaryField_stuck (s : JSchema)
    (hs : localBinaryScan s = .ok false) (hr : jsTruthy s.ref = true) :
    containsBinaryField (some s) none = .error .typeError := by
  rw [containsBinaryField]
  simp [hs, hr]

end BinaryDetectorLemmas

section ClaimC1

/-- Claim C1. The claim states: a top-level field with a non-empty
`examples` list and no direct `example` projects to a Parameter Object
with `example` equal to `examples[0]` and a description ending in
`" (Example: <value>)"`. The code contradicts this: line 27
(`paramObj.example = schema.example`) runs after the `examples[0]`
promotion of lines 22-25 and overwrites it with the (absent) direct
`example`, so the projected parameter has no `example` at all and its
description is the bare default `""` with no suffix. This theorem
evaluates the embedded code at the failing input. -/
theorem claim_C1_examples_overwritten :
    _convertJsonSchemaToParamObj
        { properties := [("email", { examples := some [JsonVal.str "a@b.com"] })] } "email" =
      .ok { name := "email", description := some "", «example» := none, examples := none,
            schema := some { examples := some [JsonVal.str "a@b.com"] } } ∧
    (paramFromField { properties := [("email", { examples := some [JsonVal.str "a@b.com"] })] }
        "email" { examples := some [JsonVal.str "a@b.com"] }).«example» ≠
      some (JsonVal.str "a@b.com") ∧
    (paramFromField { properties := [("email", { examples := some [JsonVal.str "a@b.com"] })] }
        "email" { examples := some [JsonVal.str "a@b.com"] }).description =
      some "" := by
  refine ⟨by decide, by decide, by decide⟩

end ClaimC1

section ClaimC2

/-- A schema whose only content is a root-level `$ref` to `A`. -/
def twoHopRoot : JSchema := { ref := some "#/components/schemas/A" }

/-- The intermediate shared schema: itself only a root-level `$ref` to `B`. -/
def twoHopMid : JSchema := { ref := some "#/components/schemas/B" }

/-- Store in which the only binary field lies two `$ref` hops from the root. -/
def twoHopStore : Store :=
  [("A", twoHopMid),
   ("B", { properties := [("file", { type := some "string", format := some "binary" })] })]

/-- Claim C2, counterexample. The claim states that on a body schema whose
only binary field is two consecutive root-level `$ref` hops away,
`containsBinaryField` returns `false`. On the concrete two-hop input it
does not return `false` (nor any boolean): it raises a `TypeError`,
because the recursive call drops the store argument and the second hop
dereferences `undefined`. -/
theorem claim_C2_counterexample :
    containsBinaryField (some twoHopRoot) (some twoHopStore) = .error JsErr.typeError ∧
    ∀ b : Bool, containsBinaryField (some twoHopRoot) (some twoHopStore) ≠ .ok b := by
  have h : containsBinaryField (some twoHopRoot) (some twoHopStore) = .error JsErr.typeError := by
    rw [containsBinaryField_hop _ _ (by decide) (by decide)]
    rw [show jsGet twoHopStore (refName twoHopRoot.ref) = some twoHopMid by decide]
    exact containsBinaryField_stuck _ (by decide) (by decide)
  refine ⟨h, fun b hb => ?_⟩
  rw [h] at hb
  simp at hb

/-- Claim C2, amended. Whenever a schema with no binary top-level property
resolves its root-level `$ref` to a shared schema that also has no binary
top-level property and itself carries a truthy root-level `$ref`, the
detector neither follows the second hop nor returns `false`: it raises a
`TypeError`, because the recursive call at line 70 does not pass the
shared-schema store. (`$ref`s nested inside individual properties are
never consulted: `localBinaryScan` only reads `type`, `format` and
`items.format`.) -/
theorem claim_C2_two_ref_hops_raise (store : Store) (s a : JSchema)
    (hs : localBinaryScan s = .ok false) (hr : jsTruthy s.ref = true)
    (hl : jsGet store (refName s.ref) = some a)
    (ha : localBinaryScan a = .ok false) (har : jsTruthy a.ref = true) :
    containsBinaryField (some s) (some store) = .error .typeError := by
  rw [containsBinaryField_hop s store hs hr, hl]
  exact containsBinaryField_stuck a ha har

/-- Claim C2, witness: the amended theorem applied to the concrete
two-hop store, with every hypothesis discharged by evaluation. -/
theorem claim_C2_witness :
    localBinaryScan twoHopRoot = .ok false ∧ jsTruthy twoHopRoot.ref = true ∧
    jsGet twoHopStore (refName twoHopRoot.ref) = some twoHopMid ∧
    localBinaryScan twoHopMid = .ok false ∧ jsTruthy twoHopMid.ref = true ∧
    containsBinaryField (some twoHopRoot) (some twoHopStore) = .error JsErr.typeError :=
  ⟨by decide, by decide, by decide, by decide, by decide,
   claim_C2_two_ref_hops_raise twoHopStore twoHopRoot twoHopMid
     (by decide) (by decide) (by decide) (by decide) (by decide)⟩

end ClaimC2

section ClaimC5

/-- A schema whose root-level `$ref` names a schema absent from the store. -/
def missingRefSchema : JSchema := { ref := some "#/components/schemas/Missing" }

/-- Claim C5, counterexample. The claim states that on a root-level `$ref`
to a name absent from the store the detector does not raise an error and
returns a non-binary result. On the concrete input it returns no boolean
at all: the absent entry is `undefined`, and the recursive call's
`schema.properties` access raises a `TypeError`. -/
theorem claim_C5_counterexample :
    containsBinaryField (some missingRefSchema) (some ([] : Store)) = .error JsErr.typeError ∧
    ∀ b : Bool, containsBinaryField (some missingRefSchema) (some ([] : Store)) ≠ .ok b := by
  have h : containsBinaryField (some missingRefSchema) (some ([] : Store)) =
      .error JsErr.typeError := by
    rw [containsBinaryField_hop _ _ (by decide) (by decide)]
    exact containsBinaryField_none_schema none
  refine ⟨h, fun b hb => ?_⟩
  rw [h] at hb
  simp at hb

/-- Claim C5, amended. Whenever a schema with no binary top-level property
has a truthy root-level `$ref` whose name is absent from the store, the
detector raises a `TypeError` (reading `.properties` of the `undefined`
lookup result) instead of propagating emptiness. -/
theorem claim_C5_missing_ref_raises (store : Store) (s : JSchema)
    (hs : localBinaryScan s = .ok false) (hr : jsTruthy s.ref = true)
    (hl : jsGet store (refName s.ref) = none) :
    containsBinaryField (some s) (some store) = .error .typeError := by
  rw [containsBinaryField_hop s store hs hr, hl]
  exact containsBinaryField_none_schema none

/-- Claim C5, witness: the amended theorem applied to the concrete
missing-reference input, with every hypothesis discharged by evaluation. -/
theorem claim_C5_witness :
    localBinaryScan missingRefSchema = .ok false ∧ jsTruthy missingRefSchema.ref = true ∧
    jsGet ([] : Store) (refName missingRefSchema.ref) = none ∧
    containsBinaryField (some missingRefSchema) (some ([] : Store)) = .error JsErr.typeError :=
  ⟨by decide, by decide, by decide,
   claim_C5_missing_ref_raises [] missingRefSchema (by decide) (by decide) (by decide)⟩

end ClaimC5

section ClaimC6

/-- A shared schema whose root-level `$ref` chain returns to itself. -/
def cycleSchema : JSchema := { ref := some "#/components/schemas/Loop" }

/-- A store containing a root-level reference cycle. -/
def cycleStore : Store := [("Loop", cycleSchema)]

/-- Claim C6, counterexample. The claim states that on a store with a
root-level reference cycle the detector recurses indefinitely. On the
concrete cyclic input the embedded (total) detector instead terminates
with a definite result - a `TypeError` after a single hop - because the
recursive call drops the store argument, so the cycle is never followed a
second time. -/
theorem claim_C6_counterexample :
    containsBinaryField (some cycleSchema) (some cycleStore) = .error JsErr.typeError := by
  rw [containsBinaryField_hop _ _ (by decide) (by decide)]
  rw [show jsGet cycleStore (refName cycleSchema.ref) = some cycleSchema by decide]
  exact containsBinaryField_stuck _ (by decide) (by decide)

/-- Claim C6, amended. For every store and every non-binary schema whose
root-level `$ref` resolves to itself (a reference cycle), the detector
does not recurse unboundedly: the un-threaded store stops resolution after
one hop, and the call terminates with a `TypeError`. -/
theorem claim_C6_cycle_terminates (store : Store) (s : JSchema)
    (hs : localBinaryScan s = .ok false) (hr : jsTruthy s.ref = true)
    (hcyc : jsGet store (refName s.ref) = some s) :
    containsBinaryField (some s) (some store) = .error .typeError := by
  rw [containsBinaryField_hop s store hs hr, hcyc]
  exact containsBinaryField_stuck s hs hr

/-- Claim C6, witness: the amended theorem applied to the concrete cyclic
store, with every hypothesis discharged by evaluation. -/
theorem claim_C6_witness :
    localBinaryScan cycleSchema = .ok false ∧ jsTruthy cycleSchema.ref = true ∧
    jsGet cycleStore (refName cycleSchema.ref) = some cycleSchema ∧
    containsBinaryField (some cycleSchema) (some cycleStore) = .error JsErr.typeError :=
  ⟨by decide, by decide, by decide,
   claim_C6_cycle_terminates cycleStore cycleSchema (by decide) (by decide) (by decide)⟩

end ClaimC6

/-- A trivial concrete SchemaConverter used to instantiate witnesses: the
opaque validator node is already its converted JSON schema, with an empty
`schemas` side-map and an unchanged store. -/
def idConv : Conv JSchema := fun v st => ({ schema := v }, st)

section ClaimC4

/-- Claim C4: if the body validator is absent, `addRequestBodyParams`
attaches nothing and leaves route and store unchanged; otherwise, when the
binary detection of the converted body schema returns a boolean `b`, the
route gains exactly the Request Body Object
`{ content: { [contentType]: { schema } } }` with contentType
`multipart/form-data` when `b` is true and `application/json` otherwise. -/
theorem claim_C4_request_body_content_type {σ : Type} (conv : Conv σ) (store : Store)
    (req : RouteObj) (vs : Option (Validators σ)) :
    (vs.bind (fun v => v.body) = none →
      addRequestBodyParams conv store req vs = .ok (req, store)) ∧
    (∀ (bodyVal : σ) (b : Bool), vs.bind (fun v => v.body) = some bodyVal →
      containsBinaryField (some (conv bodyVal store).1.schema)
          (some (conv bodyVal store).2) = .ok b →
      addRequestBodyParams conv store req vs =
        .ok ({ req with requestBody := some { content :=
                 [(if b then "multipart/form-data" else "application/json",
                   (conv bodyVal store).1.schema)] } },
             (conv bodyVal store).2)) := by
  constructor
  · intro h
    simp [addRequestBodyParams, h]
  · intro bodyVal b h hb
    simp [addRequestBodyParams, h, hb]

/-- A body schema with an array field whose `items.format` is `binary`. -/
def bodyBinarySchema : JSchema :=
  { properties := [("files", { type := some "array", items := some { format := some "binary" } })] }

/-- Claim C4, witness: a body validator with an `items.format === "binary"`
array field selects `multipart/form-data`; hypotheses discharged by
evaluation. -/
theorem claim_C4_witness :
    (some { body := some bodyBinarySchema } : Option (Validators JSchema)).bind
        (fun v => v.body) = some bodyBinarySchema ∧
    containsBinaryField (some (idConv bodyBinarySchema []).1.schema)
        (some (idConv bodyBinarySchema []).2) = .ok true ∧
    addRequestBodyParams idConv [] {} (some { body := some bodyBinarySchema }) =
      .ok ({ requestBody := some { content := [("multipart/form-data", bodyBinarySchema)] } },
           ([] : Store)) := by
  refine ⟨rfl, by rw [containsBinaryField]; decide, ?_⟩
  exact (claim_C4_request_body_content_type idConv [] {} (some { body := some bodyBinarySchema })).2
    bodyBinarySchema true rfl (by rw [containsBinaryField]; decide)

end ClaimC4

section ClaimC7

/-- Modelled from the spec's wording for one segment: "any segment
beginning with the marker is renamed to `{name}` (dropping the marker)". -/
def pathSegmentSpec (c : String) : String :=
  if startsWithColon c then "\x7b" ++ jsDropOne c ++ "\x7d" else c

/-- Modelled from the spec's wording of the PathTemplater algorithm:
split the concatenation on `/`, rename marked segments, rejoin with `/`,
and collect the bare names of marked segments left to right. -/
def pathTemplateSpec (basePath path : String) : String × List String :=
  (joinSlash ((splitSlash (basePath ++ path)).map pathSegmentSpec),
   ((splitSlash (basePath ++ path)).filter (fun c => startsWithColon c)).map jsDropOne)

/-- The fold of `buildPathTemplate` computes the mapped segments and the
filtered parameter names appended to the accumulator. -/
theorem buildPathTemplate_foldl (l : List String) :
    ∀ a b : List String, l.foldl pathTemplateStep (a, b) =
      (a ++ l.map pathSegmentSpec,
       b ++ (l.filter (fun c => startsWithColon c)).map jsDropOne) := by
  induction l with
  | nil => intro a b; simp
  | cons x xs ih =>
    intro a b
    by_cases h : startsWithColon x
    · simp [pathTemplateStep, pathSegmentSpec, h, ih]
    · simp [pathTemplateStep, pathSegmentSpec, h, ih]

/-- Claim C7: the path template is computed by splitting the concatenation
of base path and route path on `/`, replacing every `:`-marked segment by
`{name}` while recording the bare names left to right, and rejoining with
`/`; in particular basePath `/users` with path `/:id` yields template
`/users/{id}` and parameter names `["id"]`. -/
theorem claim_C7_path_template :
    (∀ basePath path : String,
      buildPathTemplate basePath path = pathTemplateSpec basePath path) ∧
    buildPathTemplate "/users" "/:id" = ("/users/\x7bid\x7d", ["id"]) := by
  constructor
  · intro basePath path
    simp [buildPathTemplate, pathTemplateSpec, buildPathTemplate_foldl]
  · decide

end ClaimC7

section ClaimC9

/-- Writing a key into a JS-object association list makes a subsequent
read of that key return the new value (last write wins). -/
theorem jsGet_setKey {β : Type} (m : List (String × β)) (k : String) (v : β) :
    jsGet (setKey m k v) k = some v := by
  induction m with
  | nil => simp [setKey, jsGet]
  | cons p rest ih =>
    obtain ⟨k', v'⟩ := p
    by_cases h : k' = k
    · simp [setKey, h, jsGet]
    · simp [setKey, h, jsGet, ih]

/-- Claim C9: a declared response example with no schema contributes
nothing; one with a schema stores at `responses[code]` a Response Object
whose description defaults to `"Normal Response"` and whose content is
keyed by the example's mediaType defaulting to `"application/json"`,
overwriting any prior entry for that code (last write wins, whatever the
previous responses were). -/
theorem claim_C9_response_examples {σ : Type} (conv : Conv σ) (route : RouteObj)
    (store : Store) (e : ResponseExample σ) :
    (e.schema = none → respExampleStep conv (route, store) e = (route, store)) ∧
    (∀ sv : σ, e.schema = some sv →
      jsGet (respExampleStep conv (route, store) e).1.responses e.code =
        some { description := jsOrStr e.description "Normal Response",
               content := [(jsOrStr e.mediaType "application/json",
                            (conv sv store).1.schema)] }) := by
  constructor
  · intro h
    simp [respExampleStep, h]
  · intro sv h
    simp [respExampleStep, h, jsGet_setKey]

/-- Claim C9, witness: a schema-less example leaves the responses
untouched, and an example with a schema, mediaType and description lands
at its code with those values; hypotheses discharged by evaluation. -/
theorem claim_C9_witness :
    respExampleStep idConv (({} : RouteObj), ([] : Store))
        { code := "404" } = ({}, []) ∧
    jsGet (respExampleStep idConv (({} : RouteObj), ([] : Store))
        { code := "200", schema := some ({} : JSchema), mediaType := some "text/plain",
          description := some "okay" }).1.responses "200" =
      some { description := "okay", content := [("text/plain", ({} : JSchema))] } :=
  ⟨(claim_C9_response_examples idConv {} [] { code := "404" }).1 rfl,
   (claim_C9_response_examples idConv {} []
      { code := "200", schema := some ({} : JSchema), mediaType := some "text/plain",
        description := some "okay" }).2 {} rfl⟩

end ClaimC9

section ClaimC3

/-- The description-annotation step only touches `description`; every
other Parameter Object field, in particular `name`, is preserved. -/
theorem messageDescription_name (p : ParamObj) :
    (_messageDescriptionWithExample p).name = p.name := by
  unfold _messageDescriptionWithExample
  by_cases h : jsTruthy p.description
  · simp only [h, if_true]
    cases p.«example» with
    | none => rfl
    | some v => by_cases hv : v.jsTruthy <;> simp [hv]
  · simp only [h, if_false]
    cases p.«example» with
    | none => rfl
    | some v => by_cases hv : v.jsTruthy <;> simp [hv]

/-- The projected Parameter Object's `name` is the property key. -/
theorem paramFromField_name (js : JSchema) (f : String) (s : FieldSchema) :
    (paramFromField js f s).name = f := by
  unfold paramFromField
  rw [messageDescription_name]
  repeat' split
  all_goals rfl

/-- Reading a key that occurs in an association list succeeds. -/
theorem jsGet_isSome_of_mem {β : Type} {l : List (String × β)} {p : String × β}
    (h : p ∈ l) : (jsGet l p.1).isSome := by
  induction l with
  | nil => cases h
  | cons q rest ih =>
    obtain ⟨k', v'⟩ := q
    by_cases hk : k' = p.1
    · simp [jsGet, hk]
    · rcases List.mem_cons.mp h with h1 | h2
      · rw [h1] at hk
        simp at hk
      · simpa [jsGet, hk] using ih h2

/-- The Parameter Object pushed for one iterated property, as a pure
function of the converted schema: the field is re-looked-up by key (as
`_convertJsonSchemaToParamObj` does) and labelled with the position's
`in` value. -/
def projectedParam (js : JSchema) (position : String)
    (pr : String × FieldSchema) : ParamObj :=
  { paramFromField js pr.1 ((jsGet js.properties pr.1).getD pr.2) with
    «in» := some (posLabel position) }

/-- All Parameter Objects projected from one converted location schema. -/
def projectParams (js : JSchema) (position : String) : List ParamObj :=
  js.properties.map (projectedParam js position)

/-- The `_.forEach` of `addRouteParameters` never throws (every iterated
key is present in the very properties object it is looked up in) and
appends exactly the projected Parameter Objects, in property order. -/
theorem foldlM_routeParamStep (js : JSchema) (position : String) :
    ∀ l : List (String × FieldSchema), (∀ p ∈ l, (jsGet js.properties p.1).isSome) →
    ∀ route : RouteObj,
      l.foldlM (routeParamStep js position) route =
        .ok { route with parameters := route.parameters ++ l.map (projectedParam js position) } := by
  intro l
  induction l with
  | nil =>
    intro _ route
    simp only [List.foldlM_nil, List.map_nil, List.append_nil]
    rfl
  | cons p rest ih =>
    intro hmem route
    have hp : (jsGet js.properties p.1).isSome := hmem p (List.mem_cons_self p rest)
    obtain ⟨s, hs⟩ := Option.isSome_iff_exists.mp hp
    have hstep : routeParamStep js position route p =
        .ok { route with parameters := route.parameters ++ [projectedParam js position p] } := by
      simp [routeParamStep, _convertJsonSchemaToParamObj, hs, projectedParam]
    have hrest := ih (fun q hq => hmem q (List.mem_cons_of_mem p hq))
      { route with parameters := route.parameters ++ [projectedParam js position p] }
    calc (p :: rest).foldlM (routeParamStep js position) route
        = routeParamStep js position route p >>= fun r =>
            rest.foldlM (routeParamStep js position) r := by
          rw [List.foldlM_cons]
      _ = rest.foldlM (routeParamStep js position)
            { route with parameters := route.parameters ++ [projectedParam js position p] } := by
          rw [hstep]
          exact rfl
      _ = .ok { route with
            parameters := route.parameters ++ (p :: rest).map (projectedParam js position) } := by
          rw [hrest]
          simp

/-- Characterization of `addRouteParameters` when a validator is present:
it succeeds and appends the projection of the converted schema, threading
the store returned by the converter. -/
theorem addRouteParameters_char {σ : Type} (conv : Conv σ) (store : Store)
    (route : RouteObj) (vs : Validators σ) (position : String) (v : σ)
    (hv : vs.get position = some v) :
    addRouteParameters conv store route (some vs) position =
      .ok ({ route with parameters :=
               route.parameters ++ projectParams (conv v store).1.schema position },
           (conv v store).2) := by
  have hall : ∀ p ∈ (conv v store).1.schema.properties,
      (jsGet (conv v store).1.schema.properties p.1).isSome :=
    fun p hp => jsGet_isSome_of_mem hp
  simp only [addRouteParameters, Option.bind, hv]
  rw [foldlM_routeParamStep (conv v store).1.schema position _ hall route]
  simp [projectParams, Except.map]

/-- Counting the projected parameters that match a fixed name with
`in = "query"`, for a position whose label is `"query"`, counts the
occurrences of that name among the schema's property keys. -/
theorem countP_projectParams (js : JSchema) (position : String) (f : String)
    (hpos : posLabel position = "query") :
    (projectParams js position).countP
        (fun p => p.name == f && p.«in» == some "query") =
      js.properties.countP (fun pr => pr.1 == f) := by
  unfold projectParams
  rw [List.countP_map]
  apply List.countP_congr
  intro pr _
  simp [projectedParam, Function.comp, paramFromField_name, hpos]

/-- Claim C3: when the same field name occurs in the converted schemas of
both the `"query"` and the `"queryStringParameters"` validators, the two
extraction passes run by `buildSwaggerRequest` (lines 179-185) each
project it with `in = "query"`, and the duplicates accumulate in the
route's parameter list without deduplication: the number of matching
`(name, in)` entries grows by exactly the number of occurrences under
each key. -/
theorem claim_C3_duplicate_query_params {σ : Type} (conv : Conv σ) (store : Store)
    (route : RouteObj) (vs : Validators σ) (vq vqs : σ) (f : String)
    (r₁ r₂ : RouteObj) (st₁ st₂ : Store)
    (hq : vs.query = some vq) (hqs : vs.queryStringParameters = some vqs)
    (h₁ : addRouteParameters conv store route (some vs) "query" = .ok (r₁, st₁))
    (h₂ : addRouteParameters conv st₁ r₁ (some vs) "queryStringParameters" = .ok (r₂, st₂)) :
    r₂.parameters.countP (fun p => p.name == f && p.«in» == some "query") =
      route.parameters.countP (fun p => p.name == f && p.«in» == some "query")
        + (conv vq store).1.schema.properties.countP (fun pr => pr.1 == f)
        + (conv vqs st₁).1.schema.properties.countP (fun pr => pr.1 == f) := by
  have hget1 : vs.get "query" = some vq := hq
  have hget2 : vs.get "queryStringParameters" = some vqs := hqs
  rw [addRouteParameters_char conv store route vs "query" vq hget1] at h₁
  rw [Except.ok.injEq, Prod.mk.injEq] at h₁
  obtain ⟨hr₁, hst₁⟩ := h₁
  subst hst₁
  subst hr₁
  rw [addRouteParameters_char conv _ _ vs "queryStringParameters" vqs hget2] at h₂
  rw [Except.ok.injEq, Prod.mk.injEq] at h₂
  obtain ⟨hr₂, hst₂⟩ := h₂
  subst hr₂
  simp only [List.countP_append]
  rw [countP_projectParams _ "query" f rfl,
      countP_projectParams _ "queryStringParameters" f rfl]

/-- A converted query schema declaring the single field `page`. -/
def dupQueryOnce : JSchema := { properties := [("page", {})] }

/-- Validators registering the same schema under both query position keys. -/
def dupQueryVs : Validators JSchema :=
  { query := some dupQueryOnce, queryStringParameters := some dupQueryOnce }

/-- The Parameter Object both passes project for the `page` field. -/
def dupPageParam : ParamObj :=
  { name := "page", «in» := some "query", description := some "",
    schema := some ({} : FieldSchema) }

/-- Claim C3, witness: both passes run on the duplicate validators and the
`(page, query)` parameter appears twice; hypotheses discharged by
evaluation. -/
theorem claim_C3_witness :
    addRouteParameters idConv [] {} (some dupQueryVs) "query" =
      .ok ({ parameters := [dupPageParam] }, ([] : Store)) ∧
    addRouteParameters idConv [] { parameters := [dupPageParam] } (some dupQueryVs)
        "queryStringParameters" =
      .ok ({ parameters := [dupPageParam, dupPageParam] }, ([] : Store)) ∧
    ({ parameters := [dupPageParam, dupPageParam] } : RouteObj).parameters.countP
        (fun p => p.name == "page" && p.«in» == some "query") =
      ({} : RouteObj).parameters.countP (fun p => p.name == "page" && p.«in» == some "query")
        + (idConv dupQueryOnce []).1.schema.properties.countP (fun pr => pr.1 == "page")
        + (idConv dupQueryOnce []).1.schema.properties.countP (fun pr => pr.1 == "page") := by
  refine ⟨by decide, by decide, ?_⟩
  exact claim_C3_duplicate_query_params idConv [] {} dupQueryVs dupQueryOnce dupQueryOnce
    "page" { parameters := [dupPageParam] } { parameters := [dupPageParam, dupPageParam] }
    [] [] rfl rfl (by decide) (by decide)

end ClaimC3

section ClaimC8

variable {σ : Type}

/-- The tag-registration step of `buildModuleRoutes` (lines 201-204) as a
function of the tag list alone: push the Tag Object only when no existing
tag has the same name. -/
def registerTag (tags : List Tag) (t : Tag) : List Tag :=
  match tags.find? (fun u => u.name == t.name) with
  | some _ => tags
  | none => tags ++ [t]

/-- Modelled from the spec: keep, in order, the first Tag Object for each
name, skipping any tag whose name already occurs in the accumulator or
earlier in the list (first registration wins). -/
def dedupTagsKeepFirst (acc : List Tag) : List Tag → List Tag
  | [] => []
  | t :: ts =>
    match acc.find? (fun u => u.name == t.name) with
    | some _ => dedupTagsKeepFirst acc ts
    | none => t :: dedupTagsKeepFirst (acc ++ [t]) ts

/-- `buildSwaggerRequest` never touches the document's tag list. -/
theorem buildSwaggerRequest_tags (conv : Conv σ) (d : DocEntity) (re : RouteObj)
    (tag basePath : String) (rd : RouteDef σ) (d' : DocEntity)
    (h : buildSwaggerRequest conv d re tag basePath rd = .ok d') :
    d'.tags = d.tags := by
  unfold buildSwaggerRequest at h
  dsimp only at h
  split at h <;>
    first
      | exact Except.noConfusion h
      | (rw [Except.ok.injEq] at h; subst h; rfl)

/-- Folding routes through `buildSwaggerRequest` never touches the tag list. -/
theorem foldRoutes_tags (conv : Conv σ) (re : RouteObj) (tag basePath : String) :
    ∀ (routes : List (RouteDef σ)) (d d' : DocEntity),
      routes.foldlM (fun dd rd => buildSwaggerRequest conv dd re tag basePath rd) d = .ok d' →
      d'.tags = d.tags := by
  intro routes
  induction routes with
  | nil =>
    intro d d' h
    have h' : (Except.ok d : Except JsErr DocEntity) = .ok d' := h
    rw [Except.ok.injEq] at h'
    rw [h']
  | cons rd rest ih =>
    intro d d' h
    rw [List.foldlM_cons] at h
    cases hc : buildSwaggerRequest conv d re tag basePath rd with
    | error e =>
      rw [hc] at h
      exact Except.noConfusion h
    | ok d1 =>
      rw [hc] at h
      have h' : rest.foldlM (fun dd rd => buildSwaggerRequest conv dd re tag basePath rd) d1 =
          .ok d' := h
      rw [ih d1 d' h']
      exact buildSwaggerRequest_tags conv d re tag basePath rd d1 hc

/-- One `buildModuleRoutes` call performs exactly one `registerTag` step on
the document's tag list. -/
theorem buildModuleRoutes_tags (conv : Conv σ) (d : DocEntity) (re : RouteObj)
    (m : RouteModule σ) (d' : DocEntity)
    (h : buildModuleRoutes conv d re m = .ok d') :
    d'.tags = registerTag d.tags (tagObjOf m) := by
  unfold buildModuleRoutes at h
  dsimp only at h
  unfold registerTag
  cases hfind : d.tags.find? (fun t => t.name == (tagObjOf m).name) with
  | some t =>
    rw [hfind] at h
    exact foldRoutes_tags conv re (tagObjOf m).name m.basePath m.routes d d' h
  | none =>
    rw [hfind] at h
    have := foldRoutes_tags conv re (tagObjOf m).name m.basePath m.routes
      { d with tags := d.tags ++ [tagObjOf m] } d' h
    exact this

/-- Folding modules performs the `registerTag` steps in module order. -/
theorem foldModules_tags (conv : Conv σ) (re : RouteObj) :
    ∀ (ms : List (RouteModule σ)) (d d' : DocEntity),
      foldModules conv re d ms = .ok d' →
      d'.tags = (ms.map tagObjOf).foldl registerTag d.tags := by
  intro ms
  induction ms with
  | nil =>
    intro d d' h
    have h' : (Except.ok d : Except JsErr DocEntity) = .ok d' := h
    rw [Except.ok.injEq] at h'
    rw [← h']
    rfl
  | cons m rest ih =>
    intro d d' h
    unfold foldModules at h
    rw [List.foldlM_cons] at h
    cases hc : buildModuleRoutes conv d re m with
    | error e =>
      rw [hc] at h
      exact Except.noConfusion h
    | ok d1 =>
      rw [hc] at h
      have h' : foldModules conv re d1 rest = .ok d' := h
      rw [ih d1 d' h', List.map_cons, List.foldl_cons,
          buildModuleRoutes_tags conv d re m d1 hc]

/-- The `registerTag` fold is the spec-side keep-first deduplication. -/
theorem foldl_registerTag :
    ∀ (ts : List Tag) (acc : List Tag),
      ts.foldl registerTag acc = acc ++ dedupTagsKeepFirst acc ts := by
  intro ts
  induction ts with
  | nil => intro acc; simp [dedupTagsKeepFirst]
  | cons t rest ih =>
    intro acc
    rw [List.foldl_cons]
    cases hfind : acc.find? (fun u => u.name == t.name) with
    | some u =>
      have hreg : registerTag acc t = acc := by
        unfold registerTag; rw [hfind]
      have hded : dedupTagsKeepFirst acc (t :: rest) = dedupTagsKeepFirst acc rest := by
        conv_lhs => unfold dedupTagsKeepFirst
        rw [hfind]
      rw [hreg, ih acc, hded]
    | none =>
      have hreg : registerTag acc t = acc ++ [t] := by
        unfold registerTag; rw [hfind]
      have hded : dedupTagsKeepFirst acc (t :: rest) =
          t :: dedupTagsKeepFirst (acc ++ [t]) rest := by
        conv_lhs => unfold dedupTagsKeepFirst
        rw [hfind]
      rw [hreg, ih (acc ++ [t]), hded]
      simp

/-- The names produced by the keep-first deduplication are distinct and
avoid every name already in the accumulator. -/
theorem dedupTagsKeepFirst_nodup :
    ∀ (ts : List Tag) (acc : List Tag),
      (acc.map Tag.name).Nodup → ((acc ++ dedupTagsKeepFirst acc ts).map Tag.name).Nodup := by
  intro ts
  induction ts with
  | nil => intro acc hacc; simpa [dedupTagsKeepFirst] using hacc
  | cons t rest ih =>
    intro acc hacc
    unfold dedupTagsKeepFirst
    cases hfind : acc.find? (fun u => u.name == t.name) with
    | some u => exact ih acc hacc
    | none =>
      have hnotin : t.name ∉ acc.map Tag.name := by
        intro hmem
        obtain ⟨u, hu, hun⟩ := List.mem_map.mp hmem
        have hne := List.find?_eq_none.mp hfind u hu
        simp [hun] at hne
      have hacc' : ((acc ++ [t]).map Tag.name).Nodup := by
        rw [List.map_append]
        refine List.Nodup.append hacc (by simp) ?_
        intro x hx hy
        simp only [List.map_cons, List.map_nil, List.mem_singleton] at hy
        rw [hy] at hx
        exact hnotin hx
      have := ih (acc ++ [t]) hacc'
      simpa [List.append_assoc] using this

/-- Claim C8: starting from an empty tag list (the template default),
processing any list of modules leaves the document with exactly the
keep-first deduplication of the module-derived Tag Objects - at most one
Tag Object per name, each carrying the first registering module's
description - and the resulting tag names are pairwise distinct. -/
theorem claim_C8_tag_uniqueness (conv : Conv σ) (re : RouteObj)
    (ms : List (RouteModule σ)) (d₀ doc : DocEntity)
    (h0 : d₀.tags = [])
    (h : foldModules conv re d₀ ms = .ok doc) :
    doc.tags = dedupTagsKeepFirst [] (ms.map tagObjOf) ∧
    (doc.tags.map Tag.name).Nodup := by
  have htags := foldModules_tags conv re ms d₀ doc h
  rw [h0, foldl_registerTag] at htags
  simp only [List.nil_append] at htags
  refine ⟨htags, ?_⟩
  rw [htags]
  have := dedupTagsKeepFirst_nodup (ms.map tagObjOf) [] (by simp)
  simpa using this

/-- First module registering the shared base path (no explicit metadata). -/
def tagModA : RouteModule JSchema := { basePath := "/user/admin" }

/-- Second module with the same base path and a different description. -/
def tagModB : RouteModule JSchema :=
  { basePath := "/user/admin", description := some "second module" }

/-- Claim C8, witness: two modules deriving the tag name `user-admin`
produce exactly one Tag Object carrying the first module's (defaulted)
description; hypotheses discharged by evaluation. -/
theorem claim_C8_witness :
    ({ tags := [{ name := "user-admin", description := "user-admin" }] } : DocEntity).tags =
      dedupTagsKeepFirst [] ([tagModA, tagModB].map tagObjOf) ∧
    ((({ tags := [{ name := "user-admin", description := "user-admin" }] } : DocEntity)).tags.map
        Tag.name).Nodup :=
  claim_C8_tag_uniqueness idConv {} [tagModA, tagModB] {}
    { tags := [{ name := "user-admin", description := "user-admin" }] } rfl (by decide)

end ClaimC8

section ClaimC10

variable {σ : Type}

/-- The side-channel entries pushed for one validator's `$_terms.keys`:
one entry per introspected key, each labelled `in: "path"` - the label
used by BOTH the pathParameters loop (line 283) and the
queryStringParameters loop (line 300). -/
def sideEntriesFor (termsKeys : σ → Option (List TermKey))
    (extractKey : σ → String → Option σ) (v : σ) : List (SideParam σ) :=
  ((termsKeys v).getD []).map fun k =>
    { «in» := "path", name := k.key, schema := extractKey v k.key,
      required := decide (k.flags = JsonVal.str "required") }

/-- The `parameters` value the annotation pass installs for one route. -/
def annotParams (termsKeys : σ → Option (List TermKey))
    (extractKey : σ → String → Option σ) (r : RouteDef σ) :
    Option (List (SideParam σ)) :=
  (annotateRoute termsKeys extractKey r).parameters

/-- `annotateRoute` only rewrites the `parameters` side channel. -/
theorem annotateRoute_as_params (tk : σ → Option (List TermKey))
    (ex : σ → String → Option σ) :
    annotateRoute tk ex =
      fun (r : RouteDef σ) => { r with parameters := annotParams tk ex r } := by
  funext r
  rfl

/-- `annotateRoute` in closed form: the previous side channel (defaulted
to `[]`), then the pathParameters entries, then the queryStringParameters
entries. -/
theorem annotateRoute_eq (tk : σ → Option (List TermKey))
    (ex : σ → String → Option σ) (r : RouteDef σ) :
    annotateRoute tk ex r =
      { r with parameters := some (
          (r.parameters.getD [] ++
            (r.validators.bind fun v => v.pathParameters).elim [] (sideEntriesFor tk ex)) ++
          (r.validators.bind fun v => v.queryStringParameters).elim [] (sideEntriesFor tk ex)) } := by
  unfold annotateRoute
  dsimp only
  cases hp : r.validators.bind (fun v => v.pathParameters) with
  | none =>
    cases hq : r.validators.bind (fun v => v.queryStringParameters) with
    | none => simp [sideEntriesFor, Option.elim]
    | some q => simp [sideEntriesFor, Option.elim]
  | some p =>
    cases hq : r.validators.bind (fun v => v.queryStringParameters) with
    | none => simp [sideEntriesFor, Option.elim]
    | some q => simp [sideEntriesFor, Option.elim]

/-- Rewrite every route's `parameters` side channel in a module. -/
def mapModParams (g : RouteDef σ → Option (List (SideParam σ)))
    (m : RouteModule σ) : RouteModule σ :=
  { m with routes := m.routes.map fun r => { r with parameters := g r } }

/-- Set every route's `parameters` side channel in a module list. -/
def setAllParams (ps : Option (List (SideParam σ)))
    (ms : List (RouteModule σ)) : List (RouteModule σ) :=
  ms.map (mapModParams fun _ => ps)

/-- `buildSwaggerRequest` never reads the route definition's `parameters`
side channel. -/
theorem buildSwaggerRequest_params_irrel (conv : Conv σ) (d : DocEntity)
    (re : RouteObj) (tag bp : String) (rd : RouteDef σ)
    (x : Option (List (SideParam σ))) :
    buildSwaggerRequest conv d re tag bp { rd with parameters := x } =
      buildSwaggerRequest conv d re tag bp rd := rfl

/-- Folding routes is invariant under rewriting their side channels. -/
theorem foldRoutes_params_irrel (conv : Conv σ) (re : RouteObj) (tag bp : String)
    (g : RouteDef σ → Option (List (SideParam σ))) :
    ∀ (routes : List (RouteDef σ)) (d : DocEntity),
      (routes.map fun r => { r with parameters := g r }).foldlM
          (fun dd rd => buildSwaggerRequest conv dd re tag bp rd) d =
        routes.foldlM (fun dd rd => buildSwaggerRequest conv dd re tag bp rd) d := by
  intro routes
  induction routes with
  | nil => intro d; rfl
  | cons r rest ih =>
    intro d
    rw [List.map_cons, List.foldlM_cons, List.foldlM_cons,
        buildSwaggerRequest_params_irrel]
    cases hc : buildSwaggerRequest conv d re tag bp r with
    | error e => exact rfl
    | ok d1 => exact ih d1

/-- `buildModuleRoutes` is invariant under rewriting the side channels. -/
theorem buildModuleRoutes_params_irrel (conv : Conv σ) (re : RouteObj)
    (g : RouteDef σ → Option (List (SideParam σ))) (d : DocEntity)
    (m : RouteModule σ) :
    buildModuleRoutes conv d re (mapModParams g m) = buildModuleRoutes conv d re m := by
  unfold buildModuleRoutes mapModParams
  dsimp only
  exact foldRoutes_params_irrel conv re (tagObjOf m).name m.basePath g m.routes _

/-- `foldModules` is invariant under rewriting the side channels. -/
theorem foldModules_params_irrel (conv : Conv σ) (re : RouteObj)
    (g : RouteDef σ → Option (List (SideParam σ))) :
    ∀ (ms : List (RouteModule σ)) (d : DocEntity),
      foldModules conv re d (ms.map (mapModParams g)) = foldModules conv re d ms := by
  intro ms
  induction ms with
  | nil => intro d; rfl
  | cons m rest ih =>
    intro d
    unfold foldModules
    rw [List.map_cons, List.foldlM_cons, List.foldlM_cons,
        buildModuleRoutes_params_irrel]
    cases hc : buildModuleRoutes conv d re m with
    | error e => exact rfl
    | ok d1 => exact ih d1

/-- Composition of two side-channel rewrites at the module level. -/
theorem mapModParams_comp (g1 g2 : RouteDef σ → Option (List (SideParam σ)))
    (m : RouteModule σ) :
    mapModParams g1 (mapModParams g2 m) =
      mapModParams (fun r => g1 { r with parameters := g2 r }) m := by
  unfold mapModParams
  dsimp only
  rw [List.map_map]
  exact rfl

/-- The per-module annotation map of `convert` is a side-channel rewrite. -/
theorem annotateModule_eq (tk : σ → Option (List TermKey))
    (ex : σ → String → Option σ) :
    (fun (m : RouteModule σ) => { m with routes := m.routes.map (annotateRoute tk ex) }) =
      mapModParams (annotParams tk ex) := by
  funext m
  unfold mapModParams
  rw [annotateRoute_as_params]

/-- Claim C10: `convert` mutates its `allModuleRoutes` input - in the
returned module list every route definition carries a `parameters` array;
for a validator under `pathParameters` or `queryStringParameters` one
entry per introspected key is appended, and the entries derived from
`queryStringParameters` are labelled `in: "path"` (not `"query"`); and
these side-channel entries are never read when building the returned
document - replacing every route's side channel by anything leaves the
document result unchanged. -/
theorem claim_C10_input_mutation (conv : Conv σ) (tk : σ → Option (List TermKey))
    (ex : σ → String → Option σ) (ms : List (RouteModule σ))
    (dsk : DocSkeleton) (rsk : RouteSkeleton)
    (ps : Option (List (SideParam σ))) (r : RouteDef σ) :
    ((convert conv tk ex ms dsk rsk).2.all fun m =>
        m.routes.all fun rd => rd.parameters.isSome) = true ∧
    annotateRoute tk ex r =
      { r with parameters := some (
          (r.parameters.getD [] ++
            (r.validators.bind fun v => v.pathParameters).elim [] (sideEntriesFor tk ex)) ++
          (r.validators.bind fun v => v.queryStringParameters).elim [] (sideEntriesFor tk ex)) } ∧
    (((r.validators.bind fun v => v.queryStringParameters).elim []
        (sideEntriesFor tk ex)).all fun p => p.«in» == "path") = true ∧
    (convert conv tk ex (setAllParams ps ms) dsk rsk).1 =
      (convert conv tk ex ms dsk rsk).1 := by
  refine ⟨?_, annotateRoute_eq tk ex r, ?_, ?_⟩
  · simp only [convert]
    rw [List.all_eq_true]
    intro m hm
    rw [List.all_eq_true]
    intro rd hrd
    obtain ⟨m0, hm0, rfl⟩ := List.mem_map.mp hm
    dsimp only at hrd
    obtain ⟨r0, hr0, rfl⟩ := List.mem_map.mp hrd
    rw [annotateRoute_eq]
    rfl
  · rw [List.all_eq_true]
    intro p hp
    cases hv : r.validators.bind (fun v => v.queryStringParameters) with
    | none =>
      rw [hv] at hp
      simp [Option.elim] at hp
    | some q =>
      rw [hv] at hp
      simp only [Option.elim] at hp
      unfold sideEntriesFor at hp
      obtain ⟨k, hk, rfl⟩ := List.mem_map.mp hp
      rfl
  · simp only [convert]
    rw [annotateModule_eq]
    rw [show setAllParams ps ms = ms.map (mapModParams fun _ => ps) from rfl,
        List.map_map]
    have hcomp : mapModParams (annotParams tk ex) ∘ mapModParams (fun _ => ps) =
        mapModParams (fun r => annotParams tk ex { r with parameters := ps }) := by
      funext m
      exact mapModParams_comp _ _ m
    rw [hcomp, foldModules_params_irrel conv _ _ ms,
        foldModules_params_irrel conv _ _ ms]

end ClaimC10

end JoiRouteToSwagger
